import Mathlib

/-!
Verification of the sensor-data ingestion pipeline (process_intel_data.py).

The development shallowly embeds the pipeline: Python strings are lists of
characters, Python float/int conversion is modelled over the rationals and
integers, datetime.strptime with format "%Y-%m-%d %H:%M:%S.%f" is modelled
after the CPython matching rules for that format, and the generator plus
loader become pure functions over explicit state.
-/

/-- A parsed timestamp, as produced by datetime.strptime with the fixed
format "%Y-%m-%d %H:%M:%S.%f". -/
structure Timestamp where
  year : Nat
  month : Nat
  day : Nat
  hour : Nat
  minute : Nat
  second : Nat
  microsecond : Nat
deriving DecidableEq, Repr

/-- One validated sensor reading, mirroring the dict appended in
process_intel_data (floats are modelled as rationals). -/
structure SensorReading where
  time : Timestamp
  sensor_id : Int
  temperature : Rat
  humidity : Rat
  light : Rat
  voltage : Rat
deriving DecidableEq, Repr

/-- Whitespace characters recognised by Python str.strip and str.split. -/
def isPySpace (c : Char) : Bool :=
  c = ' ' || c = '\t' || c = '\n' || c = '\r' || c.toNat = 11 || c.toNat = 12

/-- Numeric value of a decimal digit character. -/
def digitVal (c : Char) : Nat := c.toNat - 48

/-- Value of a list of decimal digit characters. -/
def digitsToNat (ds : List Char) : Nat :=
  ds.foldl (fun n c => 10 * n + digitVal c) 0

/-- Python str.strip: remove leading and trailing whitespace. -/
def pyStrip (s : List Char) : List Char :=
  ((s.dropWhile isPySpace).reverse.dropWhile isPySpace).reverse

/-- Worker for whitespace splitting; the accumulator holds the current
token in reverse. -/
def splitWsAux : List Char → List Char → List (List Char)
  | [], acc => if acc = [] then [] else [acc.reverse]
  | c :: cs, acc =>
    if isPySpace c then
      if acc = [] then splitWsAux cs [] else acc.reverse :: splitWsAux cs []
    else splitWsAux cs (c :: acc)

/-- Python str.split with no separator: maximal runs of non-whitespace. -/
def splitWs (s : List Char) : List (List Char) := splitWsAux s []

/-- The header test of the source: line.startswith("date"). -/
def startsWithDate (s : List Char) : Bool :=
  match s with
  | c1 :: c2 :: c3 :: c4 :: _ => c1 = 'd' && c2 = 'a' && c3 = 't' && c4 = 'e'
  | _ => false

/-- Optional sign at the front of a numeric literal; returns whether the
value is negated and the remaining characters. -/
def parseSign : List Char → Bool × List Char
  | '+' :: cs => (false, cs)
  | '-' :: cs => (true, cs)
  | cs => (false, cs)

/-- Python int() on an ASCII decimal literal: optional surrounding
whitespace, optional sign, one or more digits. -/
def pyInt (s : List Char) : Option Int :=
  let p := parseSign (pyStrip s)
  if p.2 ≠ [] ∧ p.2.all Char.isDigit then
    some (if p.1 then -(digitsToNat p.2 : Int) else (digitsToNat p.2 : Int))
  else none

/-- Unsigned decimal mantissa of a float literal: digits with an optional
fractional part, at least one digit overall. -/
def parseMantissa (cs : List Char) : Option (Rat × List Char) :=
  let ip := cs.takeWhile Char.isDigit
  let r1 := cs.dropWhile Char.isDigit
  match r1 with
  | '.' :: r2 =>
    let fp := r2.takeWhile Char.isDigit
    let r3 := r2.dropWhile Char.isDigit
    if ip = [] ∧ fp = [] then none
    else some ((digitsToNat ip : Rat) + (digitsToNat fp : Rat) / ((10 : Rat) ^ fp.length), r3)
  | _ => if ip = [] then none else some ((digitsToNat ip : Rat), r1)

/-- Optional exponent part of a float literal, returned as the power of
ten it contributes. -/
def parseExpPart : List Char → Option Rat
  | [] => some 1
  | c :: cs =>
    if c = 'e' ∨ c = 'E' then
      let p := parseSign cs
      if p.2 ≠ [] ∧ p.2.all Char.isDigit then
        some (if p.1 then 1 / ((10 : Rat) ^ digitsToNat p.2) else ((10 : Rat) ^ digitsToNat p.2))
      else none
    else none

/-- Python float() on a finite ASCII decimal literal, valued in the
rationals: optional surrounding whitespace, optional sign, mantissa,
optional exponent. -/
def pyFloat (s : List Char) : Option Rat :=
  let p := parseSign (pyStrip s)
  match parseMantissa p.2 with
  | none => none
  | some (m, r) =>
    match parseExpPart r with
    | none => none
    | some e => some (if p.1 then -(m * e) else m * e)

/-- Exactly four decimal digits, as the %Y directive requires. -/
def parse4Digits : List Char → Option (Nat × List Char)
  | a :: b :: c :: d :: rest =>
    if a.isDigit && b.isDigit && c.isDigit && d.isDigit then
      some (1000 * digitVal a + 100 * digitVal b + 10 * digitVal c + digitVal d, rest)
    else none
  | _ => none

/-- One literal character of the format string. -/
def parseLit (c : Char) : List Char → Option (List Char)
  | x :: rest => if x = c then some rest else none
  | [] => none

/-- A whitespace character in the format matches one or more whitespace
characters of the input. -/
def parseWs : List Char → Option (List Char)
  | c :: cs => if isPySpace c then some (cs.dropWhile isPySpace) else none
  | [] => none

/-- The %m directive: the pattern 1[0-2], or 0[1-9], or [1-9]. -/
def parseMonth : List Char → Option (Nat × List Char)
  | c1 :: c2 :: rest =>
    if c1 = '1' ∧ '0' ≤ c2 ∧ c2 ≤ '2' then some (10 + digitVal c2, rest)
    else if c1 = '0' ∧ '1' ≤ c2 ∧ c2 ≤ '9' then some (digitVal c2, rest)
    else if '1' ≤ c1 ∧ c1 ≤ '9' then some (digitVal c1, c2 :: rest)
    else none
  | [c1] => if '1' ≤ c1 ∧ c1 ≤ '9' then some (digitVal c1, []) else none
  | [] => none

/-- The %d directive: 3[01], or [12] followed by a digit, or 0[1-9], or
[1-9]. -/
def parseDay : List Char → Option (Nat × List Char)
  | c1 :: c2 :: rest =>
    if c1 = '3' ∧ ('0' ≤ c2 ∧ c2 ≤ '1') then some (30 + digitVal c2, rest)
    else if (c1 = '1' ∨ c1 = '2') ∧ c2.isDigit then some (10 * digitVal c1 + digitVal c2, rest)
    else if c1 = '0' ∧ '1' ≤ c2 ∧ c2 ≤ '9' then some (digitVal c2, rest)
    else if '1' ≤ c1 ∧ c1 ≤ '9' then some (digitVal c1, c2 :: rest)
    else none
  | [c1] => if '1' ≤ c1 ∧ c1 ≤ '9' then some (digitVal c1, []) else none
  | [] => none

/-- The %H directive: 2[0-3], or [01] followed by a digit, or a digit. -/
def parseHour : List Char → Option (Nat × List Char)
  | c1 :: c2 :: rest =>
    if c1 = '2' ∧ '0' ≤ c2 ∧ c2 ≤ '3' then some (20 + digitVal c2, rest)
    else if (c1 = '0' ∨ c1 = '1') ∧ c2.isDigit then some (10 * digitVal c1 + digitVal c2, rest)
    else if c1.isDigit then some (digitVal c1, c2 :: rest)
    else none
  | [c1] => if c1.isDigit then some (digitVal c1, []) else none
  | [] => none

/-- The %M directive: [0-5] followed by a digit, or a digit. -/
def parseMinute : List Char → Option (Nat × List Char)
  | c1 :: c2 :: rest =>
    if ('0' ≤ c1 ∧ c1 ≤ '5') ∧ c2.isDigit then some (10 * digitVal c1 + digitVal c2, rest)
    else if c1.isDigit then some (digitVal c1, c2 :: rest)
    else none
  | [c1] => if c1.isDigit then some (digitVal c1, []) else none
  | [] => none

/-- The %S directive: 6[01], or [0-5] followed by a digit, or a digit. -/
def parseSecond : List Char → Option (Nat × List Char)
  | c1 :: c2 :: rest =>
    if c1 = '6' ∧ ('0' ≤ c2 ∧ c2 ≤ '1') then some (60 + digitVal c2, rest)
    else if ('0' ≤ c1 ∧ c1 ≤ '5') ∧ c2.isDigit then some (10 * digitVal c1 + digitVal c2, rest)
    else if c1.isDigit then some (digitVal c1, c2 :: rest)
    else none
  | [c1] => if c1.isDigit then some (digitVal c1, []) else none
  | [] => none

/-- The %f directive: one to six digits, taken greedily, right padded with
zeros to a microsecond count. -/
def parseMicro (cs : List Char) : Option (Nat × List Char) :=
  let ds := (cs.take 6).takeWhile Char.isDigit
  if ds = [] then none
  else some (digitsToNat ds * 10 ^ (6 - ds.length), cs.drop ds.length)

/-- Number of days in a month, as the datetime constructor validates. -/
def daysInMonth (year month : Nat) : Nat :=
  if month = 2 then
    (if year % 4 = 0 ∧ (year % 100 ≠ 0 ∨ year % 400 = 0) then 29 else 28)
  else if month = 4 ∨ month = 6 ∨ month = 9 ∨ month = 11 then 30 else 31

/-- The date half of the format "%Y-%m-%d %H:%M:%S.%f": year, month and
day followed by the whitespace of the format; returns them with the
remaining input. -/
def strptimeDate (cs : List Char) : Option (Nat × Nat × Nat × List Char) := do
  let y ← parse4Digits cs
  let r2 ← parseLit '-' y.2
  let mo ← parseMonth r2
  let r4 ← parseLit '-' mo.2
  let d ← parseDay r4
  let r6 ← parseWs d.2
  some (y.1, mo.1, d.1, r6)

/-- The time half of the format "%Y-%m-%d %H:%M:%S.%f": hour, minute,
second and microsecond; returns them with the remaining input. -/
def strptimeTime (cs : List Char) : Option (Nat × Nat × Nat × Nat × List Char) := do
  let h ← parseHour cs
  let r8 ← parseLit ':' h.2
  let mi ← parseMinute r8
  let r10 ← parseLit ':' mi.2
  let s ← parseSecond r10
  let r12 ← parseLit '.' s.2
  let us ← parseMicro r12
  some (h.1, mi.1, s.1, us.1, us.2)

/-- datetime.strptime with format "%Y-%m-%d %H:%M:%S.%f": the directive
patterns in sequence, requiring the whole input to be consumed, followed
by the datetime constructor validation of year, day and second. -/
def pyStrptime (cs : List Char) : Option Timestamp := do
  let a ← strptimeDate cs
  let b ← strptimeTime a.2.2.2
  if b.2.2.2.2 = [] ∧ 1 ≤ a.1 ∧ a.2.2.1 ≤ daysInMonth a.1 a.2.1 ∧ b.2.2.1 ≤ 59 then
    some ⟨a.1, a.2.1, a.2.2.1, b.1, b.2.1, b.2.2.1, b.2.2.2.1⟩
  else none

/-- The positional fields of one input line: strip, then split on
whitespace, as in line.strip().split(). -/
def lineParts (line : String) : List (List Char) :=
  splitWs (pyStrip line.data)

/-- The try block of process_intel_data for one line: positional field
access (date=0, time=1, sensor id=3, temperature=4, humidity=5, light=6,
voltage=7), numeric conversion, and the combined timestamp; any failure
yields no record. -/
def parseLine (line : String) : Option SensorReading :=
  ((lineParts line)[0]?).bind fun date =>
  ((lineParts line)[1]?).bind fun time_str =>
  (((lineParts line)[3]?).bind pyInt).bind fun moteid =>
  (((lineParts line)[4]?).bind pyFloat).bind fun temperature =>
  (((lineParts line)[5]?).bind pyFloat).bind fun humidity =>
  (((lineParts line)[6]?).bind pyFloat).bind fun light =>
  (((lineParts line)[7]?).bind pyFloat).bind fun voltage =>
  (pyStrptime (date ++ ' ' :: time_str)).bind fun ts =>
  some { time := ts, sensor_id := moteid, temperature := temperature,
         humidity := humidity, light := light, voltage := voltage }

/-- The range filters of process_intel_data: temperature outside -40..100
or humidity outside 0..100 skips the record. -/
def checkRange (r : SensorReading) : Option SensorReading :=
  if r.temperature < -40 ∨ r.temperature > 100 then none
  else if r.humidity < 0 ∨ r.humidity > 100 then none
  else some r

/-- Effect of one loop iteration of process_intel_data on the record list:
the header test, then parsing, then the range filters. -/
def lineRecord (line : String) : Option SensorReading :=
  if startsWithDate line.data then none
  else (parseLine line).bind checkRange

/-- All records the parser retains, in input line order. -/
def validRecords (lines : List String) : List SensorReading :=
  lines.filterMap lineRecord

/-- The loop of process_intel_data: records accumulate in order and a
batch is yielded as soon as the list length reaches 100000; a non-empty
trailing list is yielded at end of input. -/
def batchStep : List String → List SensorReading → List (List SensorReading)
  | [], data => if data = [] then [] else [data]
  | line :: rest, data =>
    match lineRecord line with
    | none => batchStep rest data
    | some r =>
      if 100000 ≤ (data ++ [r]).length then (data ++ [r]) :: batchStep rest []
      else batchStep rest (data ++ [r])

/-- The generator process_intel_data as a function from input lines to the
list of yielded batches. -/
def process_intel_data (lines : List String) : List (List SensorReading) :=
  batchStep lines []

/-- The batching loop restated over an already parsed record list; used to
relate the generator to a plain chunking of the valid records. -/
def batchAux : List SensorReading → List SensorReading → List (List SensorReading)
  | [], data => if data = [] then [] else [data]
  | r :: rs, data =>
    if 100000 ≤ (data ++ [r]).length then (data ++ [r]) :: batchAux rs []
    else batchAux rs (data ++ [r])

/-- The two destination tables, each a list of appended rows. -/
structure DB where
  timescale : List SensorReading
  postgres : List SensorReading
deriving DecidableEq, Repr

/-- The loading loop of main over the yielded batches: for each batch, a
bulk append to the timescale table and then to the postgres table. The
oracle gives the outcome of each write attempt in order (true means the
write raises); a raised error stops the run at once and the Bool of the
result records that an error propagated. -/
def runMain (fails : Nat → Bool) : List (List SensorReading) → DB → DB × Bool
  | [], db => (db, false)
  | chunk :: rest, db =>
    if fails 0 then (db, true)
    else
      if fails 1 then (⟨db.timescale ++ chunk, db.postgres⟩, true)
      else runMain (fun n => fails (n + 2)) rest
             ⟨db.timescale ++ chunk, db.postgres ++ chunk⟩

/-- One full failure-free run of the pipeline: parse and batch the input,
then load every batch into both tables. -/
def pipelineRun (lines : List String) (db : DB) : DB :=
  (runMain (fun _ => false) (process_intel_data lines) db).1

/-- Observable events of wait_for_db: a logged failed attempt, a fixed
sleep, and the single success log. -/
inductive LogEntry where
  | failure : LogEntry
  | sleep : Nat → LogEntry
  | success : LogEntry
deriving DecidableEq, Repr

/-- The retry loop of wait_for_db. The oracle tells whether the n-th
connection attempt succeeds. Fuel bounds how many attempts are unrolled;
none means the loop is still waiting after that many attempts, never an
error. On success the index of the connecting attempt stands for the
returned engine handle, paired with the emitted log. -/
def wait_for_db (attempt : Nat → Bool) : Nat → Option (Nat × List LogEntry)
  | 0 => none
  | fuel + 1 =>
    if attempt 0 then some (0, [LogEntry.success])
    else
      match wait_for_db (fun n => attempt (n + 1)) fuel with
      | none => none
      | some p => some (p.1 + 1, LogEntry.failure :: LogEntry.sleep 5 :: p.2)

/-- Spec reading of the header rule: only the first line is subject to the
header test; every other line goes straight to field parsing. -/
def headerSkipFirstOnly (lines : List String) : List String :=
  match lines with
  | [] => []
  | l :: ls => if startsWithDate l.data then ls else l :: ls

/-- Parsing followed by the range filters, with no header test. -/
def parseValidate (line : String) : Option SensorReading :=
  (parseLine line).bind checkRange

/-- The parser and batcher as the spec describes the header rule: drop the
first line when it is a header, then parse, validate and batch every
remaining line. -/
def processFirstHeaderOnly (lines : List String) : List (List SensorReading) :=
  batchAux ((headerSkipFirstOnly lines).filterMap parseValidate) []

/-- A sample valid input line, used to instantiate universally quantified
results. -/
def sampleLine : String := "2004-03-01 10:00:00.123456 1 3 22.5 40.0 100.0 2.5"

/-- A sample input line carrying the boundary values temperature -40 and
humidity 0. -/
def boundaryLine : String := "2004-03-01 10:00:00.123456 1 3 -40 0 1.0 2.5"

/-- A sample input line with nine whitespace separated tokens. -/
def extraTokenLine : String :=
  "2004-03-01 10:00:00.123456 1 3 22.5 40.0 100.0 2.5 9"

/-- A sample reading used to instantiate loader results. -/
def sampleReading : SensorReading :=
  ⟨⟨2004, 3, 1, 10, 0, 0, 123456⟩, 3, 22, 40, 100, 2⟩

/-- The loop of process_intel_data is the record batcher applied to the
stream of retained records. -/
theorem batchStep_eq (lines : List String) :
    ∀ data, batchStep lines data = batchAux (validRecords lines) data := by
  induction lines with
  | nil => intro data; rfl
  | cons l ls ih =>
    intro data
    cases h : lineRecord l with
    | none => simp [batchStep, validRecords, List.filterMap_cons, h, ih]
    | some r =>
      simp only [batchStep, validRecords, List.filterMap_cons, h, batchAux]
      split <;> simp [ih, validRecords]

/-- Concatenating the batches recovers the pending records followed by the
remaining stream. -/
theorem batchAux_flatten : ∀ rs data : List SensorReading,
    (batchAux rs data).flatten = data ++ rs := by
  intro rs
  induction rs with
  | nil =>
    intro data
    by_cases hd : data = [] <;> simp [batchAux, hd]
  | cons r rs ih =>
    intro data
    simp only [batchAux]
    split <;> simp [ih]

/-- Number of emitted batches: the ceiling of the record count divided by
the batch bound, given that fewer than a full batch is pending. -/
theorem batchAux_length : ∀ rs data : List SensorReading,
    data.length < 100000 →
    (batchAux rs data).length = (data.length + rs.length + 99999) / 100000 := by
  intro rs
  induction rs with
  | nil =>
    intro data h
    by_cases hd : data = []
    · subst hd; simp [batchAux]
    · have : 0 < data.length := List.length_pos.mpr hd
      simp only [batchAux, if_neg hd, List.length_cons, List.length_nil]
      omega
  | cons r rs ih =>
    intro data h
    simp only [batchAux]
    split
    · next hfull =>
      have h1 : (data ++ [r]).length = data.length + 1 := by simp
      rw [List.length_cons, ih [] (by simp)]
      simp only [List.length_nil, List.length_cons]
      rw [h1] at hfull
      omega
    · next hfull =>
      have h1 : (data ++ [r]).length = data.length + 1 := by simp
      rw [ih (data ++ [r]) (by omega)]
      simp only [List.length_cons]
      rw [h1]
      omega

/-- Every emitted batch holds at most 100000 records. -/
theorem batchAux_sizes : ∀ rs data : List SensorReading,
    data.length < 100000 →
    ∀ b ∈ batchAux rs data, b.length ≤ 100000 := by
  intro rs
  induction rs with
  | nil =>
    intro data h b hb
    by_cases hd : data = [] <;> simp [batchAux, hd] at hb
    subst hb; omega
  | cons r rs ih =>
    intro data h b hb
    simp only [batchAux] at hb
    split at hb
    · rcases List.mem_cons.mp hb with hb | hb
      · subst hb; simp; omega
      · exact ih [] (by simp) b hb
    · next hfull => exact ih (data ++ [r]) (by simp at hfull ⊢; omega) b hb

/-- Membership in the front of a cons list. -/
theorem mem_dropLast_cons {α : Type} {b x : α} {t : List α}
    (h : b ∈ (x :: t).dropLast) : b = x ∨ b ∈ t.dropLast := by
  cases t with
  | nil => simp [List.dropLast] at h
  | cons y ys =>
    rw [List.dropLast_cons₂] at h
    rcases List.mem_cons.mp h with h | h
    · exact Or.inl h
    · exact Or.inr h

/-- Every batch except possibly the last is emitted exactly at the bound
of 100000 records. -/
theorem batchAux_dropLast : ∀ rs data : List SensorReading,
    data.length < 100000 →
    ∀ b ∈ (batchAux rs data).dropLast, b.length = 100000 := by
  intro rs
  induction rs with
  | nil =>
    intro data h b hb
    by_cases hd : data = [] <;> simp [batchAux, hd, List.dropLast] at hb
  | cons r rs ih =>
    intro data h b hb
    simp only [batchAux] at hb
    split at hb
    · next hfull =>
      rcases mem_dropLast_cons hb with hb | hb
      · subst hb; simp at hfull ⊢; omega
      · exact ih [] (by simp) b hb
    · next hfull => exact ih (data ++ [r]) (by simp at hfull ⊢; omega) b hb

/-- A loading run in which every write succeeds appends the concatenation
of the batches to both tables and raises no error. -/
theorem runMain_noFail : ∀ (bs : List (List SensorReading)) (db : DB),
    runMain (fun _ => false) bs db =
      (⟨db.timescale ++ bs.flatten, db.postgres ++ bs.flatten⟩, false) := by
  intro bs
  induction bs with
  | nil => intro db; simp [runMain]
  | cons b rest ih => intro db; simp [runMain, ih, List.append_assoc]

/-- The batches of a run concatenate to the retained records. -/
theorem process_intel_data_flatten (lines : List String) :
    (process_intel_data lines).flatten = validRecords lines := by
  rw [process_intel_data, batchStep_eq, batchAux_flatten]
  simp

/-- C1: on any input with at least one valid record, the generator yields
ceil(N / 100000) batches, each of at most 100000 records, every batch but
possibly the last being emitted exactly when the accumulator reaches
100000, and the batches concatenate in order to the N valid records. -/
theorem claim1_batching (lines : List String)
    (hN : 0 < (validRecords lines).length) :
    (process_intel_data lines).length =
        ((validRecords lines).length + 99999) / 100000 ∧
    (∀ b ∈ process_intel_data lines, b.length ≤ 100000) ∧
    (∀ b ∈ (process_intel_data lines).dropLast, b.length = 100000) ∧
    (process_intel_data lines).flatten = validRecords lines := by
  have he : process_intel_data lines = batchAux (validRecords lines) [] :=
    batchStep_eq lines []
  refine ⟨?_, ?_, ?_, ?_⟩
  · rw [he, batchAux_length _ _ (by simp)]; simp
  · rw [he]; exact batchAux_sizes _ _ (by simp)
  · rw [he]; exact batchAux_dropLast _ _ (by simp)
  · exact process_intel_data_flatten lines

unseal Rat.add Rat.mul Rat.inv Rat.sub Rat.ofScientific in
/-- Witness for C1 at a one-line input with one valid record. -/
theorem claim1_batching_witness :
    0 < (validRecords [sampleLine]).length ∧
    (process_intel_data [sampleLine]).length =
      ((validRecords [sampleLine]).length + 99999) / 100000 :=
  ⟨by decide, (claim1_batching [sampleLine] (by decide)).1⟩

/-- C4: when the second table write of the i-th batch raises and every
earlier write succeeded, the run stops with the error propagated, the
first table keeps the rows of batches 0..i durably committed, the second
table holds only batches 0..i-1, and no later batch is processed. -/
theorem claim4_dual_write (fails : Nat → Bool)
    (batches : List (List SensorReading)) (db : DB) (i : Nat)
    (hi : i < batches.length)
    (hfail : fails (2 * i + 1) = true)
    (hok : ∀ k, k < 2 * i + 1 → fails k = false) :
    runMain fails batches db =
      (⟨db.timescale ++ (batches.take (i + 1)).flatten,
        db.postgres ++ (batches.take i).flatten⟩, true) := by
  induction batches generalizing fails i db with
  | nil => exact absurd hi (by simp)
  | cons chunk rest ih =>
    have h0 : fails 0 = false := hok 0 (by omega)
    cases i with
    | zero =>
      have h1 : fails 1 = true := by simpa using hfail
      simp [runMain, h0, h1]
    | succ j =>
      have h1 : fails 1 = false := hok 1 (by omega)
      have hfail' : (fun n => fails (n + 2)) (2 * j + 1) = true := by
        have : 2 * j + 1 + 2 = 2 * (j + 1) + 1 := by omega
        simpa [this] using hfail
      have hok' : ∀ k, k < 2 * j + 1 → (fun n => fails (n + 2)) k = false :=
        fun k hk => hok (k + 2) (by omega)
      simp only [runMain, h0, h1, Bool.false_eq_true, if_false]
      rw [ih (fun n => fails (n + 2)) ⟨db.timescale ++ chunk, db.postgres ++ chunk⟩
        j (by simpa using hi) hfail' hok']
      simp [List.append_assoc]

/-- Witness for C4: one batch, first write succeeds, second write fails;
the timescale table keeps the batch, the postgres table stays empty. -/
theorem claim4_dual_write_witness :
    runMain (fun n => decide (n = 1)) [[sampleReading]] ⟨[], []⟩ =
      (⟨[] ++ ([[sampleReading]].take (0 + 1)).flatten,
        [] ++ ([[sampleReading]].take 0).flatten⟩, true) :=
  claim4_dual_write (fun n => decide (n = 1)) [[sampleReading]] ⟨[], []⟩ 0
    (by decide) (by decide) (by decide)

/-- C7: loading the same input twice appends the valid records to each
table twice over; nothing is deduplicated, so both tables end with two
copies of every valid record appended after their initial contents. -/
theorem claim7_not_idempotent (lines : List String) (db : DB) :
    pipelineRun lines (pipelineRun lines db) =
      ⟨db.timescale ++ validRecords lines ++ validRecords lines,
       db.postgres ++ validRecords lines ++ validRecords lines⟩ := by
  simp [pipelineRun, runMain_noFail, process_intel_data_flatten,
    List.append_assoc]

/-- C10: an input with no valid record yields no batch at all, and the
loader then performs no table write: both tables are left exactly as they
started and no error can arise. -/
theorem claim10_no_batches (lines : List String) (fails : Nat → Bool)
    (db : DB) (h : validRecords lines = []) :
    process_intel_data lines = [] ∧
    runMain fails (process_intel_data lines) db = (db, false) := by
  have hempty : process_intel_data lines = [] := by
    rw [process_intel_data, batchStep_eq, h]
    rfl
  exact ⟨hempty, by rw [hempty]; rfl⟩

/-- Witness for C10 at an input whose single line is malformed. -/
theorem claim10_no_batches_witness :
    process_intel_data ["bad line"] = [] ∧
    runMain (fun _ => true) (process_intel_data ["bad line"]) ⟨[], []⟩ =
      (⟨[], []⟩, false) :=
  claim10_no_batches ["bad line"] (fun _ => true) ⟨[], []⟩ (by decide)

/-- Dropping leading whitespace from a list ending in a non-whitespace
character keeps that final character. -/
theorem dropWhile_append_last : ∀ (l : List Char) (c : Char),
    isPySpace c = false →
    ∃ t, (l ++ [c]).dropWhile isPySpace = t ++ [c] := by
  intro l c hc
  induction l with
  | nil => exact ⟨[], by simp [List.dropWhile_cons, hc]⟩
  | cons a l ih =>
    by_cases ha : isPySpace a = true
    · simpa [List.dropWhile_cons, ha] using ih
    · exact ⟨a :: l, by simp [List.dropWhile_cons, ha]⟩

/-- Stripping a list whose head is not whitespace keeps that head. -/
theorem pyStrip_cons (c : Char) (cs : List Char) (hc : isPySpace c = false) :
    ∃ t, pyStrip (c :: cs) = c :: t := by
  unfold pyStrip
  rw [List.dropWhile_cons, if_neg (by simp [hc]), List.reverse_cons]
  obtain ⟨t, ht⟩ := dropWhile_append_last cs.reverse c hc
  exact ⟨t.reverse, by rw [ht]; simp⟩

/-- With a non-empty accumulator, the splitter always emits a first token
beginning with the accumulated characters. -/
theorem splitWsAux_acc : ∀ (cs acc : List Char), acc ≠ [] →
    ∃ s rest, splitWsAux cs acc = (acc.reverse ++ s) :: rest := by
  intro cs
  induction cs with
  | nil => intro acc h; exact ⟨[], [], by simp [splitWsAux, h]⟩
  | cons c cs ih =>
    intro acc h
    by_cases hc : isPySpace c = true
    · exact ⟨[], splitWsAux cs [], by simp [splitWsAux, hc, h]⟩
    · obtain ⟨s, rest, hs⟩ := ih (c :: acc) (by simp)
      refine ⟨c :: s, rest, ?_⟩
      simp only [splitWsAux]
      rw [if_neg (by simp [hc]), hs]
      simp

/-- Splitting a list whose head is not whitespace produces a first token
with that head. -/
theorem splitWs_cons (c : Char) (cs : List Char) (hc : isPySpace c = false) :
    ∃ t rest, splitWs (c :: cs) = (c :: t) :: rest := by
  unfold splitWs splitWsAux
  rw [if_neg (by simp [hc])]
  obtain ⟨s, rest, hs⟩ := splitWsAux_acc cs [c] (by simp)
  exact ⟨s, rest, by rw [hs]; simp⟩

/-- The %Y directive rejects an input whose first character is not a
digit. -/
theorem parse4Digits_nondigit (c : Char) (cs : List Char)
    (hc : c.isDigit = false) : parse4Digits (c :: cs) = none := by
  rcases cs with _ | ⟨b, _ | ⟨d, _ | ⟨e, rest⟩⟩⟩ <;> simp [parse4Digits, hc]

/-- The whole timestamp parse rejects an input whose first character is
not a digit. -/
theorem pyStrptime_nondigit (c : Char) (cs : List Char)
    (hc : c.isDigit = false) : pyStrptime (c :: cs) = none := by
  simp [pyStrptime, strptimeDate, parse4Digits_nondigit c cs hc]

/-- Characterisation of the header test. -/
theorem startsWithDate_iff (s : List Char) :
    startsWithDate s = true ↔ ∃ t, s = 'd' :: 'a' :: 't' :: 'e' :: t := by
  constructor
  · intro h
    rcases s with _ | ⟨c1, _ | ⟨c2, _ | ⟨c3, _ | ⟨c4, t⟩⟩⟩⟩ <;>
      simp [startsWithDate] at h
    obtain ⟨⟨⟨rfl, rfl⟩, rfl⟩, rfl⟩ := h
    exact ⟨t, rfl⟩
  · rintro ⟨t, rfl⟩; rfl

/-- A line that passes the header test can never parse: its first token
starts with the letter d, which the %Y directive rejects. -/
theorem parseLine_none_of_header (line : String)
    (hd : startsWithDate line.data = true) : parseLine line = none := by
  obtain ⟨t, ht⟩ := (startsWithDate_iff line.data).mp hd
  have hsp : isPySpace 'd' = false := by decide
  obtain ⟨t1, ht1⟩ : ∃ t1, pyStrip line.data = 'd' :: t1 := by
    rw [ht]; exact pyStrip_cons _ _ hsp
  obtain ⟨t2, toks, ht2⟩ := splitWs_cons 'd' t1 hsp
  have hlp : lineParts line = ('d' :: t2) :: toks := by
    rw [lineParts, ht1, ht2]
  unfold parseLine
  rw [hlp]
  simp only [List.getElem?_cons_zero, List.getElem?_cons_succ,
    Option.some_bind]
  rcases h1 : toks[0]? with _ | p1
  · simp
  rcases h3 : (toks[2]?).bind pyInt with _ | v3
  · simp [h3]
  rcases h4 : (toks[3]?).bind pyFloat with _ | v4
  · simp [h4]
  rcases h5 : (toks[4]?).bind pyFloat with _ | v5
  · simp [h5]
  rcases h6 : (toks[5]?).bind pyFloat with _ | v6
  · simp [h6]
  rcases h7 : (toks[6]?).bind pyFloat with _ | v7
  · simp [h7]
  have hts : pyStrptime ('d' :: (t2 ++ ' ' :: p1)) = none :=
    pyStrptime_nondigit 'd' _ (by decide)
  simp [h1, h3, h4, h5, h6, h7, hts]

/-- The header test inside the per-line step is redundant: a line it
catches would be dropped by the parse anyway. -/
theorem lineRecord_eq_parseValidate (line : String) :
    lineRecord line = parseValidate line := by
  unfold lineRecord parseValidate
  by_cases h : startsWithDate line.data = true
  · rw [if_pos h, parseLine_none_of_header line h]; rfl
  · rw [if_neg h]

/-- C6: the generator behaves exactly as the spec states the header rule:
removing the first line when and only when it starts with the token date,
and handing every other line to field splitting and validation, yields the
same batches as the implemented loop. -/
theorem claim6_header_only_first (lines : List String) :
    process_intel_data lines = processFirstHeaderOnly lines := by
  have hfun : lineRecord = parseValidate := funext lineRecord_eq_parseValidate
  cases lines with
  | nil => rfl
  | cons l ls =>
    rw [process_intel_data, batchStep_eq, processFirstHeaderOnly]
    rw [validRecords, hfun]
    simp only [headerSkipFirstOnly]
    by_cases hl : startsWithDate l.data = true
    · rw [if_pos hl]
      have hnone : parseValidate l = none := by
        unfold parseValidate
        rw [parseLine_none_of_header l hl]
        rfl
      rw [List.filterMap_cons_none hnone]
    · rw [if_neg hl]

/-- C2: a line whose positional numeric fields 3..7 are missing (fewer
than 8 whitespace separated tokens) or fail numeric conversion produces no
record at all. -/
theorem claim2_malformed_dropped (line : String)
    (h : (lineParts line).length < 8 ∨
      ((lineParts line)[3]?).bind pyInt = none ∨
      ((lineParts line)[4]?).bind pyFloat = none ∨
      ((lineParts line)[5]?).bind pyFloat = none ∨
      ((lineParts line)[6]?).bind pyFloat = none ∨
      ((lineParts line)[7]?).bind pyFloat = none) :
    lineRecord line = none := by
  rw [lineRecord_eq_parseValidate]
  suffices hp : parseLine line = none by
    rw [parseValidate, hp]; rfl
  unfold parseLine
  rcases h0 : (lineParts line)[0]? with _ | p0
  · simp
  rcases h1 : (lineParts line)[1]? with _ | p1
  · simp [h0, h1]
  rcases h3 : ((lineParts line)[3]?).bind pyInt with _ | v3
  · simp [h0, h1, h3]
  rcases h4 : ((lineParts line)[4]?).bind pyFloat with _ | v4
  · simp [h0, h1, h3, h4]
  rcases h5 : ((lineParts line)[5]?).bind pyFloat with _ | v5
  · simp [h0, h1, h3, h4, h5]
  rcases h6 : ((lineParts line)[6]?).bind pyFloat with _ | v6
  · simp [h0, h1, h3, h4, h5, h6]
  rcases h7 : ((lineParts line)[7]?).bind pyFloat with _ | v7
  · simp [h0, h1, h3, h4, h5, h6, h7]
  exfalso
  rcases h with hlen | hx | hx | hx | hx | hx
  · have hnone : (lineParts line)[7]? = none :=
      List.getElem?_eq_none (by omega)
    rcases Option.bind_eq_some.mp h7 with ⟨p7, hp7, _⟩
    rw [hnone] at hp7
    cases hp7
  · rw [hx] at h3; cases h3
  · rw [hx] at h4; cases h4
  · rw [hx] at h5; cases h5
  · rw [hx] at h6; cases h6
  · rw [hx] at h7; cases h7

/-- Witness for C2 at a one-token line. -/
theorem claim2_malformed_dropped_witness : lineRecord "abc" = none :=
  claim2_malformed_dropped "abc" (by decide)

/-- C3: a successfully parsed record is dropped exactly when its
temperature lies outside -40..100 or its humidity outside 0..100, and is
retained exactly when both lie inside; in particular the boundary values
-40 and 100 for temperature and 0 and 100 for humidity are retained. -/
theorem claim3_range_filter (line : String) (r : SensorReading)
    (h : parseLine line = some r) :
    (lineRecord line = none ↔
      (r.temperature < -40 ∨ r.temperature > 100 ∨
       r.humidity < 0 ∨ r.humidity > 100)) ∧
    (lineRecord line = some r ↔
      (-40 ≤ r.temperature ∧ r.temperature ≤ 100 ∧
       0 ≤ r.humidity ∧ r.humidity ≤ 100)) := by
  rw [lineRecord_eq_parseValidate, parseValidate, h, Option.some_bind]
  unfold checkRange
  by_cases h1 : (r.temperature < -40 ∨ r.temperature > 100)
  · rw [if_pos h1]
    constructor
    · constructor
      · intro _
        rcases h1 with h1 | h1
        · exact Or.inl h1
        · exact Or.inr (Or.inl h1)
      · intro _; rfl
    · constructor
      · intro hc; cases hc
      · rintro ⟨ha, hb, _, _⟩
        exfalso
        rcases h1 with h1 | h1 <;> linarith
  · rw [if_neg h1]
    push_neg at h1
    by_cases h2 : (r.humidity < 0 ∨ r.humidity > 100)
    · rw [if_pos h2]
      constructor
      · constructor
        · intro _
          rcases h2 with h2 | h2
          · exact Or.inr (Or.inr (Or.inl h2))
          · exact Or.inr (Or.inr (Or.inr h2))
        · intro _; rfl
      · constructor
        · intro hc; cases hc
        · rintro ⟨_, _, hc, hd⟩
          exfalso
          rcases h2 with h2 | h2 <;> linarith
    · rw [if_neg h2]
      push_neg at h2
      constructor
      · constructor
        · intro hc; cases hc
        · rintro (hx | hx | hx | hx) <;> exfalso
          · linarith [h1.1]
          · linarith [h1.2]
          · linarith [h2.1]
          · linarith [h2.2]
      · exact ⟨fun _ => ⟨h1.1, h1.2, h2.1, h2.2⟩, fun _ => rfl⟩

unseal Rat.add Rat.mul Rat.inv Rat.sub Rat.ofScientific in
/-- Witness for C3: the boundary values temperature -40 and humidity 0 are
retained. -/
theorem claim3_range_filter_witness :
    lineRecord boundaryLine =
      some ⟨⟨2004, 3, 1, 10, 0, 0, 123456⟩, 3, -40, 0, 1, 5 / 2⟩ :=
  ((claim3_range_filter boundaryLine
      ⟨⟨2004, 3, 1, 10, 0, 0, 123456⟩, 3, -40, 0, 1, 5 / 2⟩
      (by decide)).2).mpr (by decide)

/-- C9: a line with more than eight tokens whose positional fields parse
and whose temperature and humidity lie in range still yields exactly the
record built from fields 0, 1, 3, 4, 5, 6 and 7; the extra trailing tokens
are ignored. -/
theorem claim9_extra_tokens (line : String)
    (p0 p1 p2 p3 p4 p5 p6 p7 : List Char) (rest : List (List Char))
    (ts : Timestamp) (sid : Int) (temp hum light volt : Rat)
    (hparts : lineParts line =
      p0 :: p1 :: p2 :: p3 :: p4 :: p5 :: p6 :: p7 :: rest)
    (hrest : rest ≠ [])
    (hts : pyStrptime (p0 ++ ' ' :: p1) = some ts)
    (hid : pyInt p3 = some sid)
    (htemp : pyFloat p4 = some temp)
    (hhum : pyFloat p5 = some hum)
    (hlight : pyFloat p6 = some light)
    (hvolt : pyFloat p7 = some volt)
    (htr : -40 ≤ temp ∧ temp ≤ 100)
    (hhr : 0 ≤ hum ∧ hum ≤ 100) :
    lineRecord line = some ⟨ts, sid, temp, hum, light, volt⟩ := by
  have hpl : parseLine line = some ⟨ts, sid, temp, hum, light, volt⟩ := by
    unfold parseLine
    rw [hparts]
    simp only [List.getElem?_cons_zero, List.getElem?_cons_succ,
      Option.some_bind]
    simp [hid, htemp, hhum, hlight, hvolt, hts]
  rw [lineRecord_eq_parseValidate, parseValidate, hpl, Option.some_bind]
  unfold checkRange
  have hnt : ¬((⟨ts, sid, temp, hum, light, volt⟩ :
      SensorReading).temperature < -40 ∨
      (⟨ts, sid, temp, hum, light, volt⟩ :
      SensorReading).temperature > 100) := by
    push_neg
    exact htr
  have hnh : ¬((⟨ts, sid, temp, hum, light, volt⟩ :
      SensorReading).humidity < 0 ∨
      (⟨ts, sid, temp, hum, light, volt⟩ :
      SensorReading).humidity > 100) := by
    push_neg
    exact hhr
  rw [if_neg hnt, if_neg hnh]

unseal Rat.add Rat.mul Rat.inv Rat.sub Rat.ofScientific in
/-- Witness for C9 at a nine-token line. -/
theorem claim9_extra_tokens_witness :
    lineRecord extraTokenLine =
      some ⟨⟨2004, 3, 1, 10, 0, 0, 123456⟩, 3, 22.5, 40, 100, 2.5⟩ :=
  claim9_extra_tokens extraTokenLine "2004-03-01".data "10:00:00.123456".data
    "1".data "3".data "22.5".data "40.0".data "100.0".data "2.5".data
    [['9']] ⟨2004, 3, 1, 10, 0, 0, 123456⟩ 3 22.5 40 100 2.5
    (by decide) (by decide) (by decide) (by decide) (by decide) (by decide)
    (by decide) (by decide) (by decide) (by decide)

unseal Rat.add Rat.mul Rat.inv Rat.sub Rat.ofScientific in
/-- C5: the sample line of the spec yields exactly one record with the
stated time, sensor id, temperature and humidity, and the same line with
temperature 150.0 yields no record at all. -/
theorem claim5_scenario :
    process_intel_data ["2004-03-01 10:00:00.123456 1 3 22.5 40.0 100.0 2.5"] =
      [[⟨⟨2004, 3, 1, 10, 0, 0, 123456⟩, 3, 22.5, 40.0, 100.0, 2.5⟩]] ∧
    process_intel_data ["2004-03-01 10:00:00.123456 1 3 150.0 40.0 100.0 2.5"] =
      [] :=
  ⟨by decide, by decide⟩

/-- Any success returned by the gate names a succeeding attempt, all
earlier attempts failed, and the log is one failure line plus one fixed
five second sleep per failed attempt followed by exactly one success
line. -/
theorem wait_for_db_sound : ∀ (fuel : Nat) (attempt : Nat → Bool)
    (n : Nat) (log : List LogEntry),
    wait_for_db attempt fuel = some (n, log) →
    attempt n = true ∧ (∀ m, m < n → attempt m = false) ∧
    log = (List.replicate n [LogEntry.failure, LogEntry.sleep 5]).flatten ++
      [LogEntry.success] := by
  intro fuel
  induction fuel with
  | zero => intro attempt n log h; simp [wait_for_db] at h
  | succ fuel ih =>
    intro attempt n log h
    rw [wait_for_db] at h
    by_cases ha : attempt 0 = true
    · rw [if_pos ha] at h
      simp only [Option.some.injEq, Prod.mk.injEq] at h
      obtain ⟨rfl, rfl⟩ := h
      exact ⟨ha, fun m hm => by omega, by simp⟩
    · rw [if_neg ha] at h
      rcases hrec : wait_for_db (fun k => attempt (k + 1)) fuel with _ | p
      · rw [hrec] at h; cases h
      · obtain ⟨n', log'⟩ := p
        rw [hrec] at h
        simp only [Option.some.injEq, Prod.mk.injEq] at h
        obtain ⟨rfl, rfl⟩ := h
        obtain ⟨hA, hB, hC⟩ := ih (fun k => attempt (k + 1)) n' log' hrec
        refine ⟨hA, ?_, ?_⟩
        · intro m hm
          cases m with
          | zero => exact Bool.eq_false_iff.mpr ha
          | succ m' => exact hB m' (by omega)
        · rw [hC]; simp [List.replicate_succ]

/-- Once some attempt succeeds, enough fuel makes the gate return. -/
theorem wait_for_db_terminates : ∀ (fuel : Nat) (attempt : Nat → Bool)
    (n : Nat), attempt n = true → n < fuel →
    wait_for_db attempt fuel ≠ none := by
  intro fuel
  induction fuel with
  | zero => intro attempt n h hn; omega
  | succ fuel ih =>
    intro attempt n h hn
    rw [wait_for_db]
    by_cases ha : attempt 0 = true
    · rw [if_pos ha]; simp
    · rw [if_neg ha]
      cases n with
      | zero => exact absurd h ha
      | succ m =>
        have hne := ih (fun k => attempt (k + 1)) m h (by omega)
        rcases hrec : wait_for_db (fun k => attempt (k + 1)) fuel with _ | p
        · exact absurd hrec hne
        · simp

/-- While every attempt fails the gate keeps retrying: no amount of fuel
makes it return, and in particular no error is ever surfaced. -/
theorem wait_for_db_waits : ∀ (fuel : Nat) (attempt : Nat → Bool),
    (∀ m, attempt m = false) → wait_for_db attempt fuel = none := by
  intro fuel
  induction fuel with
  | zero => intro attempt h; rfl
  | succ fuel ih =>
    intro attempt h
    rw [wait_for_db, if_neg (by simp [h 0])]
    rw [ih (fun k => attempt (k + 1)) (fun m => h (m + 1))]

/-- C8: the gate never surfaces a connection error. A returned handle
always comes from a succeeding attempt, every earlier attempt having
failed and logged one failure followed by the fixed five second sleep,
with success logged exactly once at the end; once some attempt succeeds
the gate does return, and while the store stays unreachable it waits
forever instead of failing. -/
theorem claim8_wait_for_db (attempt : Nat → Bool) :
    (∀ fuel n log, wait_for_db attempt fuel = some (n, log) →
      attempt n = true ∧ (∀ m, m < n → attempt m = false) ∧
      log = (List.replicate n [LogEntry.failure, LogEntry.sleep 5]).flatten ++
        [LogEntry.success]) ∧
    (∀ n, attempt n = true → ∀ fuel, n < fuel →
      wait_for_db attempt fuel ≠ none) ∧
    ((∀ m, attempt m = false) → ∀ fuel, wait_for_db attempt fuel = none) :=
  ⟨fun fuel n log h => wait_for_db_sound fuel attempt n log h,
   fun n h fuel hn => wait_for_db_terminates fuel attempt n h hn,
   fun h fuel => wait_for_db_waits fuel attempt h⟩

/-- Witness for C8: with the third attempt succeeding, the gate returns. -/
theorem claim8_wait_for_db_witness :
    wait_for_db (fun m => decide (m = 2)) 3 ≠ none :=
  (claim8_wait_for_db (fun m => decide (m = 2))).2.1 2 (by decide) 3
    (by decide)
